import Mathlib

/-!
Shallow embedding of the `social` backend (Go) — the transaction manager,
event bus, repositories, domain services, pagination and JWT auth service —
together with theorems settling the specification claims C1–C10.

Machine integers (`uint`, `int64`) are modelled as `Nat`/`Int`; none of the
claims depends on overflow.  Fallible Go functions returning `(T, error)`
are modelled with `Except GoErr T` or `Option GoErr`.
-/

namespace Social

/-- Go error values as this repository builds them:
`errors.New` and message-only `fmt.Errorf` (`base`),
`fmt.Errorf(".. %w", e)` (`wrapf`, unwrappable), and binary
`errors.Join(a, b)` (`join2`, both sides unwrappable). -/
inductive GoErr where
  | base (msg : String)
  | wrapf (msg : String) (inner : GoErr)
  | join2 (a b : GoErr)
deriving Repr, DecidableEq

/-- `errors.Is`: target match by sentinel identity (modelled as structural
equality of the sentinel values, which are pairwise distinct in this
repository) followed by unwrapping through `%w` wraps and joins. -/
def GoErr.is : GoErr → GoErr → Bool
  | e@(.base _), t => e == t
  | e@(.wrapf _ inner), t => e == t || inner.is t
  | e@(.join2 a b), t => e == t || a.is t || b.is t

/-- The `Error()` text of an error value: `fmt.Errorf("msg: %w", e)`
renders as `msg: <e>`, `errors.Join` joins the texts with a newline. -/
def GoErr.errText : GoErr → String
  | .base m => m
  | .wrapf m inner => m ++ ": " ++ inner.errText
  | .join2 a b => a.errText ++ "\n" ++ b.errText

namespace domain

/-- `internal/domain/errors.go`: base domain errors. -/
def ErrNotFound : GoErr := .base "not found"

def ErrForbidden : GoErr := .base "forbidden"

def ErrUnauthorized : GoErr := .base "unauthorized"

def ErrValidation : GoErr := .base "validation failed"

def ErrConflict : GoErr := .base "conflict"

def ErrInternal : GoErr := .base "internal error"

/-- `internal/domain/errors.go`: user specific errors. -/
def ErrUserNotFound : GoErr := .join2 ErrNotFound (.base "user")

def ErrUserAlreadyExists : GoErr := .join2 ErrConflict (.base "user already exists")

def ErrInvalidUsername : GoErr := .join2 ErrValidation (.base "invalid username")

def ErrInvalidEmail : GoErr := .join2 ErrValidation (.base "invalid email")

def ErrInvalidPassword : GoErr := .join2 ErrValidation (.base "invalid password")

/-- `internal/domain/errors.go`: post specific errors. -/
def ErrPostNotFound : GoErr := .join2 ErrNotFound (.base "post")

def ErrInvalidTitle : GoErr := .join2 ErrValidation (.base "invalid title")

def ErrInvalidContent : GoErr := .join2 ErrValidation (.base "invalid content")

/-- `internal/domain/errors.go`: auth specific errors. -/
def ErrInvalidToken : GoErr := .join2 ErrUnauthorized (.base "invalid or expired token")

end domain

/-- A gorm connection handle: the shared default connection (`r.db` /
`tm.db`) or an open transaction created by one `WithTransaction` call. -/
inductive Conn where
  | main
  | tx (id : Nat)
deriving Repr, DecidableEq

/-- The request context, as far as this code reads it: the value stored
under the package-private `txKey` (`internal/db`), if any. -/
structure Ctx where
  txVal : Option Conn
deriving Repr, DecidableEq

/-- `internal/db.GetDBFromContext`: if a transaction is stored in the
context, return it, otherwise return the default connection. -/
def GetDBFromContext (ctx : Ctx) (defaultDB : Conn) : Conn :=
  match ctx.txVal with
  | some t => t
  | none => defaultDB

namespace events

/-- The domain events of `internal/events/user_events.go` and
`internal/events/post_events.go`. -/
inductive DomainEvent where
  | userCreated (userId : Nat) (username email : String)
  | userUpdated (userId : Nat) (username email : String)
  | userDeleted (userId : Nat)
  | postCreated (postId userId : Nat) (title : String)
  | postUpdated (postId userId : Nat) (title : String)
  | postDeleted (postId userId : Nat)
deriving Repr, DecidableEq

/-- `Event.Type()`: the type tag string of each event. -/
def DomainEvent.typeTag : DomainEvent → String
  | .userCreated _ _ _ => "user.created"
  | .userUpdated _ _ _ => "user.updated"
  | .userDeleted _ => "user.deleted"
  | .postCreated _ _ _ => "post.created"
  | .postUpdated _ _ _ => "post.updated"
  | .postDeleted _ _ => "post.deleted"

/-- A registered `EventHandler`.  Go compares handlers with
`fmt.Sprintf("%p", h)`; `hid` models that pointer identity (distinct
handler values are assumed to print distinct pointers), `run` is the
handler body, returning an error or not. -/
structure HandlerRef where
  hid : Nat
  run : DomainEvent → Option GoErr

/-- The `InMemoryEventBus.handlers` map, `map[string][]EventHandler`,
modelled as an association list with pairwise distinct keys. -/
abbrev Registry := List (String × List HandlerRef)

/-- Reading `bus.handlers[eventType]` (a missing key yields the empty
slice). -/
def handlersFor (reg : Registry) (t : String) : List HandlerRef :=
  match reg.find? (fun kv => kv.1 == t) with
  | some kv => kv.2
  | none => []

/-- `InMemoryEventBus.Subscribe`: append the handler to the slice for the
event type. -/
def subscribe (reg : Registry) (t : String) (h : HandlerRef) : Registry :=
  if reg.any (fun kv => kv.1 == t) then
    reg.map (fun kv => if kv.1 == t then (kv.1, kv.2 ++ [h]) else kv)
  else
    reg ++ [(t, [h])]

/-- The loop body of `InMemoryEventBus.Unsubscribe`: remove the first
handler whose `%p` matches, then `break`; no match leaves the slice
unchanged. -/
def removeFirstById (hs : List HandlerRef) (pid : Nat) : List HandlerRef :=
  match hs with
  | [] => []
  | h :: rest => if h.hid == pid then rest else h :: removeFirstById rest pid

/-- `InMemoryEventBus.Unsubscribe`. -/
def unsubscribe (reg : Registry) (t : String) (h : HandlerRef) : Registry :=
  reg.map (fun kv => if kv.1 == t then (kv.1, removeFirstById kv.2 h.hid) else kv)

/-- The results of invoking, in slice order, every handler registered for
the event's type tag — the `for _, handler := range handlers` loop of
`InMemoryEventBus.Publish`. -/
def publishResults (reg : Registry) (ev : DomainEvent) : List (Option GoErr) :=
  (handlersFor reg ev.typeTag).map (fun h => h.run ev)

/-- `fmt.Errorf("event handling errors: %v", errs)`: `%v` of an `[]error`
slice formats the elements' `Error()` texts space-separated in brackets;
no `%w` is used, so the result is a flat, non-unwrappable error. -/
def formatHandlerErrs (errs : List GoErr) : String :=
  "event handling errors: [" ++ String.intercalate " " (errs.map GoErr.errText) ++ "]"

/-- `InMemoryEventBus.Publish`: collect the errors of the failing handlers
in invocation order; return `nil` when there are none, otherwise one
composite error built from all of them. -/
def publish (reg : Registry) (ev : DomainEvent) : Option GoErr :=
  let errs := (publishResults reg ev).reduceOption
  if errs.isEmpty then none else some (.base (formatHandlerErrs errs))

end events

/-- Observable actions of one service call, in execution order: storage
reads, storage writes (tagged with the connection they ran on),
transaction begin/commit/rollback, and event publications (tagged with
the value `Publish` returned, which the services discard). -/
inductive Action where
  | txBegin (c : Conn)
  | txCommit
  | txRollback
  | write (conn : Conn) (op : String)
  | readOp (op : String)
  | published (ev : events.DomainEvent) (busResult : Option GoErr)
deriving Repr, DecidableEq

/-- Environment of one `WithTransaction` call: whether `Begin` or `Commit`
fail at the storage layer, and the identity of the transaction handle the
call opens. -/
structure TxEnv where
  beginErr : Option GoErr
  commitErr : Option GoErr
  txId : Nat
deriving Repr

/-- `internal/db.transactionManager.WithTransaction`, which delegates to
`gorm.DB.Transaction` (external collaborator; its documented contract —
begin, run the closure, roll back and return the closure's error on
failure, otherwise commit and return the commit error — is restated in
the spec §4.1) and stores the transaction handle in the derived context
`txCtx` under `txKey`.  The state `σ` is the storage state: rollback
restores the state from before the call. -/
def WithTransaction {σ : Type} (env : TxEnv) (ctx : Ctx) (s : σ)
    (fn : Ctx → σ → Option GoErr × σ × List Action) : Option GoErr × σ × List Action :=
  match env.beginErr with
  | some e => (some e, s, [])
  | none =>
    let txConn := Conn.tx env.txId
    let r := fn { ctx with txVal := some txConn } s
    match r.1 with
    | some e => (some e, s, Action.txBegin txConn :: r.2.2 ++ [Action.txRollback])
    | none =>
      match env.commitErr with
      | some ce => (some ce, s, Action.txBegin txConn :: r.2.2)
      | none => (none, r.2.1, Action.txBegin txConn :: r.2.2 ++ [Action.txCommit])

/-- Storage-level failure injection for one repository, mirroring the
fields of the repository mocks in the service tests (`createErr`,
`getByIDErr`, `updateErr`, `deleteErr`); `now` is the storage clock used
for `DeletedAt`/`UpdatedAt` stamps. -/
structure RepoEnv where
  createErr : Option GoErr
  getErr : Option GoErr
  updateErr : Option GoErr
  deleteErr : Option GoErr
  now : Nat
deriving Repr

/-- The all-succeeding repository environment. -/
def RepoEnv.ok (now : Nat) : RepoEnv :=
  { createErr := none, getErr := none, updateErr := none, deleteErr := none, now := now }

namespace users

/-- `users.Model` (`users/model.go`): gorm row with a nullable soft-delete
timestamp. -/
structure Model where
  id : Nat
  username : String
  email : String
  password : String
  createdAt : Nat
  updatedAt : Nat
  deletedAt : Option Nat
deriving Repr, DecidableEq

/-- The `users` table plus gorm's auto-assigned primary key counter. -/
structure Store where
  rows : List Model
  nextId : Nat
deriving Repr, DecidableEq

/-- `users/errors.go`. -/
def ErrNotFound : GoErr := domain.ErrUserNotFound

def ErrAlreadyExists : GoErr := domain.ErrUserAlreadyExists

/-- `users.repository.getDB`: the connection the users repository runs on —
the transaction from the context if present, the default connection
otherwise. -/
def getDB (ctx : Ctx) : Conn :=
  GetDBFromContext ctx Conn.main

/-- A live (not soft-deleted) row with the given id, as gorm's default
scope sees it. -/
def findLiveById (st : Store) (id : Nat) : Option Model :=
  st.rows.find? (fun r => r.id == id && r.deletedAt == none)

def findLiveByUsername (st : Store) (username : String) : Option Model :=
  st.rows.find? (fun r => r.username == username && r.deletedAt == none)

def findLiveByEmail (st : Store) (email : String) : Option Model :=
  st.rows.find? (fun r => r.email == email && r.deletedAt == none)

/-- `users.repository.Create`: insert on the connection chosen by `getDB`;
storage assigns the next id; a storage error is wrapped. -/
def repoCreate (env : RepoEnv) (ctx : Ctx) (st : Store) (u : Model) :
    Except GoErr Model × Store × Conn :=
  let conn := getDB ctx
  match env.createErr with
  | some e => (.error (.wrapf "failed to create user" e), st, conn)
  | none =>
    let created := { u with
      id := st.nextId, createdAt := env.now, updatedAt := env.now, deletedAt := none }
    (.ok created, { rows := st.rows ++ [created], nextId := st.nextId + 1 }, conn)

/-- `users.repository.GetByID`: `First` under the default scope;
`gorm.ErrRecordNotFound` is normalized to `ErrNotFound`, other storage
errors are wrapped. -/
def repoGetByID (env : RepoEnv) (ctx : Ctx) (st : Store) (id : Nat) :
    Except GoErr Model × Conn :=
  let conn := getDB ctx
  match env.getErr with
  | some e => (.error (.wrapf ("failed to get user by id " ++ toString id) e), conn)
  | none =>
    match findLiveById st id with
    | some r => (.ok r, conn)
    | none => (.error ErrNotFound, conn)

/-- `users.repository.GetByUsername`. -/
def repoGetByUsername (env : RepoEnv) (ctx : Ctx) (st : Store) (username : String) :
    Except GoErr Model × Conn :=
  let conn := getDB ctx
  match env.getErr with
  | some e => (.error (.wrapf ("failed to get user by username " ++ username) e), conn)
  | none =>
    match findLiveByUsername st username with
    | some r => (.ok r, conn)
    | none => (.error ErrNotFound, conn)

/-- `users.repository.GetByEmail`. -/
def repoGetByEmail (env : RepoEnv) (ctx : Ctx) (st : Store) (email : String) :
    Except GoErr Model × Conn :=
  let conn := getDB ctx
  match env.getErr with
  | some e => (.error (.wrapf ("failed to get user by email " ++ email) e), conn)
  | none =>
    match findLiveByEmail st email with
    | some r => (.ok r, conn)
    | none => (.error ErrNotFound, conn)

/-- `users.repository.Update` (`Save`): write the row with the model's
primary key, stamping `UpdatedAt`; a storage error is wrapped. -/
def repoUpdate (env : RepoEnv) (ctx : Ctx) (st : Store) (u : Model) :
    Except GoErr Model × Store × Conn :=
  let conn := getDB ctx
  match env.updateErr with
  | some e => (.error (.wrapf ("failed to update user " ++ toString u.id) e), st, conn)
  | none =>
    let stamped := { u with updatedAt := env.now }
    if st.rows.any (fun r => r.id == u.id) then
      (.ok stamped,
       { st with rows := st.rows.map (fun r => if r.id == u.id then stamped else r) }, conn)
    else
      (.ok stamped, { st with rows := st.rows ++ [stamped] }, conn)

/-- `users.repository.Delete`: gorm soft delete — stamp `DeletedAt` on the
live rows with this id; zero affected rows is `ErrNotFound`. -/
def repoDelete (env : RepoEnv) (ctx : Ctx) (st : Store) (id : Nat) :
    Option GoErr × Store × Conn :=
  let conn := getDB ctx
  match env.deleteErr with
  | some e => (some (.wrapf ("failed to delete user " ++ toString id) e), st, conn)
  | none =>
    let affected := st.rows.countP (fun r => r.id == id && r.deletedAt == none)
    if affected == 0 then
      (some ErrNotFound, st, conn)
    else
      (none,
       { st with rows := st.rows.map (fun r =>
           if r.id == id && r.deletedAt == none then { r with deletedAt := some env.now } else r) },
       conn)

end users

namespace posts

/-- `posts/errors.go`. -/
def ErrNotFound : GoErr := .base "post not found"

def ErrForbidden : GoErr := .base "forbidden: you can only modify your own posts"

/-- `posts.Model` (gorm row with `DeletedAt`). -/
structure Model where
  id : Nat
  title : String
  content : String
  userId : Nat
  tags : List String
  createdAt : Nat
  updatedAt : Nat
  deletedAt : Option Nat
deriving Repr, DecidableEq

/-- The `posts` table plus gorm's primary key counter. -/
structure Store where
  rows : List Model
  nextId : Nat
deriving Repr, DecidableEq

/-- The connection every `posts.repository` method runs on: the repository
calls `r.db.WithContext(ctx)` directly and never consults
`db.GetDBFromContext`, so it is always the default connection, whatever
the context carries. -/
def repoConn (_ctx : Ctx) : Conn :=
  Conn.main

def findLiveById (st : Store) (id : Nat) : Option Model :=
  st.rows.find? (fun r => r.id == id && r.deletedAt == none)

/-- `posts.repository.Create`. -/
def repoCreate (env : RepoEnv) (ctx : Ctx) (st : Store) (p : Model) :
    Except GoErr Model × Store × Conn :=
  let conn := repoConn ctx
  match env.createErr with
  | some e => (.error (.wrapf "failed to create post" e), st, conn)
  | none =>
    let created := { p with
      id := st.nextId, createdAt := env.now, updatedAt := env.now, deletedAt := none }
    (.ok created, { rows := st.rows ++ [created], nextId := st.nextId + 1 }, conn)

/-- `posts.repository.GetByID`. -/
def repoGetByID (env : RepoEnv) (ctx : Ctx) (st : Store) (id : Nat) :
    Except GoErr Model × Conn :=
  let conn := repoConn ctx
  match env.getErr with
  | some e => (.error (.wrapf ("failed to get post by id " ++ toString id) e), conn)
  | none =>
    match findLiveById st id with
    | some r => (.ok r, conn)
    | none => (.error ErrNotFound, conn)

/-- `posts.repository.Update` (`Save`). -/
def repoUpdate (env : RepoEnv) (ctx : Ctx) (st : Store) (p : Model) :
    Except GoErr Model × Store × Conn :=
  let conn := repoConn ctx
  match env.updateErr with
  | some e => (.error (.wrapf ("failed to update post " ++ toString p.id) e), st, conn)
  | none =>
    let stamped := { p with updatedAt := env.now }
    if st.rows.any (fun r => r.id == p.id) then
      (.ok stamped,
       { st with rows := st.rows.map (fun r => if r.id == p.id then stamped else r) }, conn)
    else
      (.ok stamped, { st with rows := st.rows ++ [stamped] }, conn)

/-- `posts.repository.Delete`: gorm soft delete; zero affected rows is
`ErrNotFound`. -/
def repoDelete (env : RepoEnv) (ctx : Ctx) (st : Store) (id : Nat) :
    Option GoErr × Store × Conn :=
  let conn := repoConn ctx
  match env.deleteErr with
  | some e => (some (.wrapf ("failed to delete post " ++ toString id) e), st, conn)
  | none =>
    let affected := st.rows.countP (fun r => r.id == id && r.deletedAt == none)
    if affected == 0 then
      (some ErrNotFound, st, conn)
    else
      (none,
       { st with rows := st.rows.map (fun r =>
           if r.id == id && r.deletedAt == none then { r with deletedAt := some env.now } else r) },
       conn)

end posts

namespace comments

/-- `comments.Model`. -/
structure Model where
  id : Nat
  postId : Nat
  content : String
  userId : Nat
  createdAt : Nat
  updatedAt : Nat
  deletedAt : Option Nat
deriving Repr, DecidableEq

structure Store where
  rows : List Model
  nextId : Nat
deriving Repr, DecidableEq

/-- The connection every `comments.repository` method runs on: like the
posts repository it calls `r.db.WithContext(ctx)` directly, never
`db.GetDBFromContext`. -/
def repoConn (_ctx : Ctx) : Conn :=
  Conn.main

/-- `comments.repository.Create`. -/
def repoCreate (env : RepoEnv) (ctx : Ctx) (st : Store) (c : Model) :
    Except GoErr Model × Store × Conn :=
  let conn := repoConn ctx
  match env.createErr with
  | some e => (.error (.wrapf "failed to create comment" e), st, conn)
  | none =>
    let created := { c with
      id := st.nextId, createdAt := env.now, updatedAt := env.now, deletedAt := none }
    (.ok created, { rows := st.rows ++ [created], nextId := st.nextId + 1 }, conn)

end comments

namespace domain

/-- `internal/domain/user.go`: the domain user. -/
structure User where
  id : Nat
  username : String
  email : String
  password : String
deriving Repr, DecidableEq

/-- Models `bcrypt.GenerateFromPassword` (external collaborator): an
injective, opaque transformation of the plaintext. -/
def bcryptHash (plain : String) : String :=
  "bcrypt$" ++ plain

/-- `User.Validate`: `len` in Go is byte length. -/
def User.Validate (u : User) : Option GoErr :=
  if u.username.utf8ByteSize < 3 then some ErrInvalidUsername
  else if u.username.utf8ByteSize > 100 then some ErrInvalidUsername
  else if u.email.utf8ByteSize == 0 then some ErrInvalidEmail
  else none

/-- `User.SetPassword`: reject plaintexts under 6 bytes, otherwise store
the bcrypt hash. -/
def User.SetPassword (u : User) (plain : String) : Except GoErr User :=
  if plain.utf8ByteSize < 6 then .error ErrInvalidPassword
  else .ok { u with password := bcryptHash plain }

/-- `User.UpdateUsername`. -/
def User.UpdateUsername (u : User) (newUsername : String) : Except GoErr User :=
  if newUsername.utf8ByteSize < 3 || newUsername.utf8ByteSize > 100 then .error ErrInvalidUsername
  else .ok { u with username := newUsername }

/-- `User.UpdateEmail`. -/
def User.UpdateEmail (u : User) (newEmail : String) : Except GoErr User :=
  if newEmail.utf8ByteSize == 0 then .error ErrInvalidEmail
  else .ok { u with email := newEmail }

/-- `internal/domain/post.go`: the domain post. -/
structure Post where
  id : Nat
  title : String
  content : String
  userId : Nat
  tags : List String
deriving Repr, DecidableEq

/-- `Post.Validate`. -/
def Post.Validate (p : Post) : Option GoErr :=
  if p.title.utf8ByteSize == 0 || p.title.utf8ByteSize > 255 then some ErrInvalidTitle
  else if p.content.utf8ByteSize == 0 then some ErrInvalidContent
  else none

/-- `Post.CanBeEditedBy`: pure ownership predicate. -/
def Post.CanBeEditedBy (p : Post) (userId : Nat) : Bool :=
  p.userId == userId

/-- `Post.CanBeDeletedBy`. -/
def Post.CanBeDeletedBy (p : Post) (userId : Nat) : Bool :=
  p.userId == userId

/-- `Post.UpdateTitle`. -/
def Post.UpdateTitle (p : Post) (newTitle : String) : Except GoErr Post :=
  if newTitle.utf8ByteSize == 0 || newTitle.utf8ByteSize > 255 then .error ErrInvalidTitle
  else .ok { p with title := newTitle }

/-- `Post.UpdateContent`. -/
def Post.UpdateContent (p : Post) (newContent : String) : Except GoErr Post :=
  if newContent.utf8ByteSize == 0 then .error ErrInvalidContent
  else .ok { p with content := newContent }

/-- `Post.UpdateTags`. -/
def Post.UpdateTags (p : Post) (newTags : List String) : Post :=
  { p with tags := newTags }

end domain

namespace di

/-- `internal/di.domainUserRepositoryAdapter.GetByID`: delegate to the
users repository and convert the row to a domain user. -/
def adapterGetByID (env : RepoEnv) (ctx : Ctx) (st : users.Store) (id : Nat) :
    Except GoErr domain.User :=
  match users.repoGetByID env ctx st id with
  | (.error e, _) => .error e
  | (.ok m, _) => .ok { id := m.id, username := m.username, email := m.email, password := m.password }

end di

/-- The collaborators a service is wired with, and the storage/transaction
environment of the call: failure injections per repository, the
transaction environment, and whether a transaction manager and an event
bus are configured (`s.transactionMgr != nil`, `s.eventBus != nil`). -/
structure SvcEnv where
  usersRepoEnv : RepoEnv
  postsRepoEnv : RepoEnv
  txEnv : TxEnv
  hasTxMgr : Bool
  hasBus : Bool
deriving Repr

/-- The storage state shared by the services. -/
structure World where
  users : users.Store
  posts : posts.Store
deriving Repr, DecidableEq

namespace users

/-- `users.CreateRequest`. -/
structure CreateRequest where
  username : String
  email : String
  password : String
deriving Repr, DecidableEq

/-- `users.UpdateRequest` (all fields optional pointers). -/
structure UpdateRequest where
  username : Option String
  email : Option String
  password : Option String
deriving Repr, DecidableEq

/-- `users.Response` (timestamps kept as numbers; their RFC 3339
formatting is presentation only). -/
structure Response where
  id : Nat
  username : String
  email : String
  createdAt : Nat
  updatedAt : Nat
deriving Repr, DecidableEq

/-- `users.Service.domainToModel`. -/
def domainToModel (u : domain.User) : Model :=
  { id := 0, username := u.username, email := u.email, password := u.password,
    createdAt := 0, updatedAt := 0, deletedAt := none }

/-- `users.Service.modelToDomain`. -/
def modelToDomain (m : Model) : domain.User :=
  { id := m.id, username := m.username, email := m.email, password := m.password }

/-- `users.Service.toResponse`. -/
def toResponse (m : Model) : Response :=
  { id := m.id, username := m.username, email := m.email,
    createdAt := m.createdAt, updatedAt := m.updatedAt }

/-- The `if s.transactionMgr != nil` block shared by the mutating service
methods: run the persistence step inside `WithTransaction` when a
transaction manager is configured, directly on the caller's context
otherwise.  The state is the store paired with the model the repository
mutates in place (gorm writes the generated id / stamps back into the
passed struct). -/
def runPersist (env : SvcEnv) (ctx : Ctx) {σ : Type} (s : σ)
    (body : Ctx → σ → Option GoErr × σ × List Action) : Option GoErr × σ × List Action :=
  if env.hasTxMgr then
    WithTransaction env.txEnv ctx s body
  else
    body ctx s

/-- `users.Service.Create`. -/
def serviceCreate (env : SvcEnv) (reg : events.Registry) (ctx : Ctx) (st : Store)
    (req : CreateRequest) : Except GoErr Response × Store × List Action :=
  let user : domain.User := { id := 0, username := req.username, email := req.email, password := "" }
  match domain.User.Validate user with
  | some e => (.error (.wrapf "validation failed" e), st, [])
  | none =>
  match domain.User.SetPassword user req.password with
  | .error e => (.error (.wrapf "failed to set password" e), st, [])
  | .ok user1 =>
  match repoGetByUsername env.usersRepoEnv ctx st req.username with
  | (.ok _, _) => (.error ErrAlreadyExists, st, [Action.readOp "users.GetByUsername"])
  | (.error e, _) =>
  if e == ErrNotFound then
    match repoGetByEmail env.usersRepoEnv ctx st req.email with
    | (.ok _, _) =>
        (.error ErrAlreadyExists, st,
         [Action.readOp "users.GetByUsername", Action.readOp "users.GetByEmail"])
    | (.error e2, _) =>
    if e2 == ErrNotFound then
      let model := domainToModel user1
      let pre := [Action.readOp "users.GetByUsername", Action.readOp "users.GetByEmail"]
      let step := runPersist env ctx (st, model) (fun txCtx s =>
        let r := repoCreate env.usersRepoEnv txCtx s.1 model
        match r.1 with
        | .error e3 => (some e3, (r.2.1, s.2), [Action.write r.2.2 "users.Create"])
        | .ok created => (none, (r.2.1, created), [Action.write r.2.2 "users.Create"]))
      match step.1 with
      | some e3 => (.error (.wrapf "failed to create user" e3), step.2.1.1, pre ++ step.2.2)
      | none =>
        let ev := events.DomainEvent.userCreated step.2.1.2.id user1.username user1.email
        let pubActs :=
          if env.hasBus then [Action.published ev (events.publish reg ev)] else []
        (.ok (toResponse step.2.1.2), step.2.1.1, pre ++ step.2.2 ++ pubActs)
    else
      (.error (.wrapf "failed to check email existence" e2), st,
       [Action.readOp "users.GetByUsername", Action.readOp "users.GetByEmail"])
  else
    (.error (.wrapf "failed to check username existence" e), st, [Action.readOp "users.GetByUsername"])

/-- The `if req.Username != nil` block of `users.Service.Update`:
uniqueness check against other rows, then the domain update. -/
def usernameStep (env : SvcEnv) (ctx : Ctx) (st : Store) (id : Nat) (user : domain.User) :
    Option String → Except (GoErr × List Action) (domain.User × List Action)
  | none => .ok (user, [])
  | some nu =>
    let tr := [Action.readOp "users.GetByUsername"]
    match repoGetByUsername env.usersRepoEnv ctx st nu with
    | (.ok existing, _) =>
      if existing.id != id then .error (ErrAlreadyExists, tr)
      else
        match domain.User.UpdateUsername user nu with
        | .error e => .error (.wrapf "failed to update username" e, tr)
        | .ok user2 => .ok (user2, tr)
    | (.error e, _) =>
      if e == ErrNotFound then
        match domain.User.UpdateUsername user nu with
        | .error e2 => .error (.wrapf "failed to update username" e2, tr)
        | .ok user2 => .ok (user2, tr)
      else .error (.wrapf "failed to check username existence" e, tr)

/-- The `if req.Email != nil` block of `users.Service.Update`. -/
def emailStep (env : SvcEnv) (ctx : Ctx) (st : Store) (id : Nat) (user : domain.User) :
    Option String → Except (GoErr × List Action) (domain.User × List Action)
  | none => .ok (user, [])
  | some ne =>
    let tr := [Action.readOp "users.GetByEmail"]
    match repoGetByEmail env.usersRepoEnv ctx st ne with
    | (.ok existing, _) =>
      if existing.id != id then .error (ErrAlreadyExists, tr)
      else
        match domain.User.UpdateEmail user ne with
        | .error e => .error (.wrapf "failed to update email" e, tr)
        | .ok user2 => .ok (user2, tr)
    | (.error e, _) =>
      if e == ErrNotFound then
        match domain.User.UpdateEmail user ne with
        | .error e2 => .error (.wrapf "failed to update email" e2, tr)
        | .ok user2 => .ok (user2, tr)
      else .error (.wrapf "failed to check email existence" e, tr)

/-- The `if req.Password != nil` block of `users.Service.Update`. -/
def passwordStep (user : domain.User) :
    Option String → Except GoErr domain.User
  | none => .ok user
  | some np =>
    match domain.User.SetPassword user np with
    | .error e => .error (.wrapf "failed to set password" e)
    | .ok user2 => .ok user2

/-- `users.Service.Update`. -/
def serviceUpdate (env : SvcEnv) (reg : events.Registry) (ctx : Ctx) (st : Store)
    (id : Nat) (req : UpdateRequest) : Except GoErr Response × Store × List Action :=
  let tr0 := [Action.readOp "users.GetByID"]
  match repoGetByID env.usersRepoEnv ctx st id with
  | (.error e, _) =>
      (.error (.wrapf ("failed to get user by id " ++ toString id) e), st, tr0)
  | (.ok model, _) =>
  let user := modelToDomain model
  match usernameStep env ctx st id user req.username with
  | .error (e, tr1) => (.error e, st, tr0 ++ tr1)
  | .ok (user1, tr1) =>
  match emailStep env ctx st id user1 req.email with
  | .error (e, tr2) => (.error e, st, tr0 ++ tr1 ++ tr2)
  | .ok (user2, tr2) =>
  match passwordStep user2 req.password with
  | .error e => (.error e, st, tr0 ++ tr1 ++ tr2)
  | .ok user3 =>
  match domain.User.Validate user3 with
  | some e => (.error (.wrapf "validation failed" e), st, tr0 ++ tr1 ++ tr2)
  | none =>
  let updatedModel := { domainToModel user3 with id := model.id, createdAt := model.createdAt }
  let pre := tr0 ++ tr1 ++ tr2
  let step := runPersist env ctx (st, updatedModel) (fun txCtx s =>
    let r := repoUpdate env.usersRepoEnv txCtx s.1 updatedModel
    match r.1 with
    | .error e3 => (some e3, (r.2.1, s.2), [Action.write r.2.2 "users.Update"])
    | .ok stamped => (none, (r.2.1, stamped), [Action.write r.2.2 "users.Update"]))
  match step.1 with
  | some e3 =>
      (.error (.wrapf ("failed to update user " ++ toString id) e3), step.2.1.1, pre ++ step.2.2)
  | none =>
    let ev := events.DomainEvent.userUpdated user3.id user3.username user3.email
    let pubActs :=
      if env.hasBus then [Action.published ev (events.publish reg ev)] else []
    (.ok (toResponse step.2.1.2), step.2.1.1, pre ++ step.2.2 ++ pubActs)

/-- `users.Service.Delete`. -/
def serviceDelete (env : SvcEnv) (reg : events.Registry) (ctx : Ctx) (st : Store)
    (id : Nat) : Option GoErr × Store × List Action :=
  let tr0 := [Action.readOp "users.GetByID"]
  match repoGetByID env.usersRepoEnv ctx st id with
  | (.error e, _) =>
      (some (.wrapf ("failed to get user by id " ++ toString id) e), st, tr0)
  | (.ok _, _) =>
  let step := runPersist env ctx st (fun txCtx s =>
    let r := repoDelete env.usersRepoEnv txCtx s id
    (r.1, r.2.1, [Action.write r.2.2 "users.Delete"]))
  match step.1 with
  | some e2 =>
      (some (.wrapf ("failed to delete user " ++ toString id) e2), step.2.1, tr0 ++ step.2.2)
  | none =>
    let ev := events.DomainEvent.userDeleted id
    let pubActs :=
      if env.hasBus then [Action.published ev (events.publish reg ev)] else []
    (none, step.2.1, tr0 ++ step.2.2 ++ pubActs)

end users

namespace posts

/-- `posts.CreateRequest`. -/
structure CreateRequest where
  title : String
  content : String
  tags : List String
deriving Repr, DecidableEq

/-- `posts.UpdateRequest`. -/
structure UpdateRequest where
  title : Option String
  content : Option String
  tags : Option (List String)
deriving Repr, DecidableEq

/-- `posts.Response`. -/
structure Response where
  id : Nat
  title : String
  content : String
  userId : Nat
  tags : List String
  createdAt : Nat
  updatedAt : Nat
deriving Repr, DecidableEq

/-- `posts.Service.domainToModel`. -/
def domainToModel (p : domain.Post) : Model :=
  { id := 0, title := p.title, content := p.content, userId := p.userId, tags := p.tags,
    createdAt := 0, updatedAt := 0, deletedAt := none }

/-- `posts.Service.modelToDomain`. -/
def modelToDomain (m : Model) : domain.Post :=
  { id := m.id, title := m.title, content := m.content, userId := m.userId, tags := m.tags }

/-- `posts.Service.toResponse`. -/
def toResponse (m : Model) : Response :=
  { id := m.id, title := m.title, content := m.content, userId := m.userId, tags := m.tags,
    createdAt := m.createdAt, updatedAt := m.updatedAt }

/-- `posts.Service.Create`: existence precheck through the injected
`domain.UserRepository` (the di adapter over the users repository), then
validation, then the transactional persistence, then the event. -/
def serviceCreate (env : SvcEnv) (reg : events.Registry) (ctx : Ctx) (w : World)
    (userID : Nat) (req : CreateRequest) : Except GoErr Response × World × List Action :=
  let tr0 := [Action.readOp "users.GetByID"]
  match di.adapterGetByID env.usersRepoEnv ctx w.users userID with
  | .error e => (.error (.wrapf "failed to check user existence" e), w, tr0)
  | .ok _ =>
  let post : domain.Post :=
    { id := 0, title := req.title, content := req.content, userId := userID, tags := req.tags }
  match domain.Post.Validate post with
  | some e => (.error (.wrapf "validation failed" e), w, tr0)
  | none =>
  let model := domainToModel post
  let step := users.runPersist env ctx (w.posts, model) (fun txCtx s =>
    let r := repoCreate env.postsRepoEnv txCtx s.1 model
    match r.1 with
    | .error e3 => (some e3, (r.2.1, s.2), [Action.write r.2.2 "posts.Create"])
    | .ok created => (none, (r.2.1, created), [Action.write r.2.2 "posts.Create"]))
  match step.1 with
  | some e3 =>
      (.error (.wrapf "failed to create post" e3), { w with posts := step.2.1.1 }, tr0 ++ step.2.2)
  | none =>
    let ev := events.DomainEvent.postCreated step.2.1.2.id userID req.title
    let pubActs :=
      if env.hasBus then [Action.published ev (events.publish reg ev)] else []
    (.ok (toResponse step.2.1.2), { w with posts := step.2.1.1 }, tr0 ++ step.2.2 ++ pubActs)

/-- The `if req.Title != nil` block of `posts.Service.Update`. -/
def titleStep (post : domain.Post) : Option String → Except GoErr domain.Post
  | none => .ok post
  | some nt =>
    match domain.Post.UpdateTitle post nt with
    | .error e => .error (.wrapf "failed to update title" e)
    | .ok post2 => .ok post2

/-- The `if req.Content != nil` block of `posts.Service.Update`. -/
def contentStep (post : domain.Post) : Option String → Except GoErr domain.Post
  | none => .ok post
  | some nc =>
    match domain.Post.UpdateContent post nc with
    | .error e => .error (.wrapf "failed to update content" e)
    | .ok post2 => .ok post2

/-- The `if req.Tags != nil` block of `posts.Service.Update`. -/
def tagsStep (post : domain.Post) : Option (List String) → domain.Post
  | none => post
  | some nt => domain.Post.UpdateTags post nt

/-- `posts.Service.Update`: read, ownership check, field updates,
validation, transactional `Save`, then the event. -/
def serviceUpdate (env : SvcEnv) (reg : events.Registry) (ctx : Ctx) (w : World)
    (id userID : Nat) (req : UpdateRequest) : Except GoErr Response × World × List Action :=
  let tr0 := [Action.readOp "posts.GetByID"]
  match repoGetByID env.postsRepoEnv ctx w.posts id with
  | (.error e, _) =>
      (.error (.wrapf ("failed to get post by id " ++ toString id) e), w, tr0)
  | (.ok model, _) =>
  let post := modelToDomain model
  if !(domain.Post.CanBeEditedBy post userID) then (.error ErrForbidden, w, tr0)
  else
  match titleStep post req.title with
  | .error e => (.error e, w, tr0)
  | .ok post1 =>
  match contentStep post1 req.content with
  | .error e => (.error e, w, tr0)
  | .ok post2 =>
  let post3 := tagsStep post2 req.tags
  match domain.Post.Validate post3 with
  | some e => (.error (.wrapf "validation failed" e), w, tr0)
  | none =>
  let updatedModel := { domainToModel post3 with id := model.id, createdAt := model.createdAt }
  let step := users.runPersist env ctx (w.posts, updatedModel) (fun txCtx s =>
    let r := repoUpdate env.postsRepoEnv txCtx s.1 updatedModel
    match r.1 with
    | .error e3 => (some e3, (r.2.1, s.2), [Action.write r.2.2 "posts.Update"])
    | .ok stamped => (none, (r.2.1, stamped), [Action.write r.2.2 "posts.Update"]))
  match step.1 with
  | some e3 =>
      (.error (.wrapf ("failed to update post " ++ toString id) e3),
       { w with posts := step.2.1.1 }, tr0 ++ step.2.2)
  | none =>
    let ev := events.DomainEvent.postUpdated post3.id post3.userId post3.title
    let pubActs :=
      if env.hasBus then [Action.published ev (events.publish reg ev)] else []
    (.ok (toResponse step.2.1.2), { w with posts := step.2.1.1 }, tr0 ++ step.2.2 ++ pubActs)

/-- `posts.Service.Delete`: read, ownership check, transactional soft
delete, then the event. -/
def serviceDelete (env : SvcEnv) (reg : events.Registry) (ctx : Ctx) (w : World)
    (id userID : Nat) : Option GoErr × World × List Action :=
  let tr0 := [Action.readOp "posts.GetByID"]
  match repoGetByID env.postsRepoEnv ctx w.posts id with
  | (.error e, _) =>
      (some (.wrapf ("failed to get post by id " ++ toString id) e), w, tr0)
  | (.ok model, _) =>
  let post := modelToDomain model
  if !(domain.Post.CanBeDeletedBy post userID) then (some ErrForbidden, w, tr0)
  else
  let step := users.runPersist env ctx w.posts (fun txCtx s =>
    let r := repoDelete env.postsRepoEnv txCtx s id
    (r.1, r.2.1, [Action.write r.2.2 "posts.Delete"]))
  match step.1 with
  | some e2 =>
      (some (.wrapf ("failed to delete post " ++ toString id) e2),
       { w with posts := step.2.1 }, tr0 ++ step.2.2)
  | none =>
    let ev := events.DomainEvent.postDeleted post.id post.userId
    let pubActs :=
      if env.hasBus then [Action.published ev (events.publish reg ev)] else []
    (none, { w with posts := step.2.1 }, tr0 ++ step.2.2 ++ pubActs)

end posts

namespace httputil

/-- Decimal digit accumulation for `strconv.Atoi`: fails on the first
non-digit. -/
def digitsVal (cs : List Char) : Option Nat :=
  cs.foldl (fun acc c =>
    match acc with
    | none => none
    | some n => if c.isDigit then some (n * 10 + (c.toNat - 48)) else none) (some 0)

/-- The digit run of an `Atoi` body: empty input is an error. -/
def atoiDigits (cs : List Char) : Option Nat :=
  if cs.isEmpty then none else digitsVal cs

/-- `strconv.Atoi`: optional single sign followed by at least one digit
(int-range overflow is irrelevant here: an overflowing value errors and
keeps the defaults, which satisfy the same bounds). -/
def Atoi (s : String) : Option Int :=
  match s.toList with
  | [] => none
  | c :: rest =>
    if c == '-' then (atoiDigits rest).map (fun n => -(n : Int))
    else if c == '+' then (atoiDigits rest).map (fun n => (n : Int))
    else (atoiDigits (c :: rest)).map (fun n => (n : Int))

/-- `internal/http.GetPaginationParams`: the two query parameter strings
are as returned by `r.URL.Query().Get` — the empty string when absent. -/
def GetPaginationParams (limitStr offsetStr : String) : Int × Int :=
  let limit : Int := 20
  let offset : Int := 0
  let limit :=
    if limitStr != "" then
      match Atoi limitStr with
      | some parsed =>
        if parsed > 0 then (if parsed > 100 then 100 else parsed) else limit
      | none => limit
    else limit
  let offset :=
    if offsetStr != "" then
      match Atoi offsetStr with
      | some parsed => if parsed ≥ 0 then parsed else offset
      | none => offset
    else offset
  (limit, offset)

end httputil

namespace auth

/-- `auth` package sentinel errors. -/
def ErrInvalidToken : GoErr := .base "invalid or expired token"

/-- A JWT claim value as it appears on the wire and, after decoding into
`jwt.MapClaims` (`map[string]interface{}`), in memory: JSON numbers
(non-negative integers here) or strings. -/
inductive CVal where
  | num (n : Nat)
  | str (s : String)
deriving Repr, DecidableEq

abbrev JwtClaims := List (String × CVal)

/-- Map lookup in a claims object. -/
def lookupClaim (cs : JwtClaims) (k : String) : Option CVal :=
  match cs.find? (fun kv => kv.1 == k) with
  | some kv => some kv.2
  | none => none

/-- Rounding a non-negative integer to the nearest IEEE-754 double
(round-to-nearest, ties-to-even on the 53-bit significand).  This models
what `encoding/json` does when it decodes a JSON integer into an
`interface{}` as a `float64`: integers below `2^53` are exact. -/
def roundF64 (n : Nat) : Nat :=
  if n < 2 ^ 53 then n
  else
    let k := Nat.log2 n
    let shift := k - 52
    let q := n / 2 ^ shift
    let r := n % 2 ^ shift
    let half := 2 ^ (shift - 1)
    let q2 := if half < r || (r == half && q % 2 == 1) then q + 1 else q
    q2 * 2 ^ shift

/-- A signed token.  The HMAC signature (external collaborator
`golang-jwt`) is modelled as a perfect MAC: the signature value is the
(algorithm, payload, key) triple itself, and verification recomputes and
compares it. -/
structure Token where
  alg : String
  claims : JwtClaims
  sig : String × JwtClaims × String
deriving Repr, DecidableEq

/-- `auth.Service.generateToken`: build the `jwt.MapClaims`
`user_id`/`email`/`exp`/`iat` object and sign it with HS256 under the
service's secret; `now` is `time.Now().Unix()`. -/
def generateToken (jwtSecret : String) (expirationHours : Nat) (userID : Nat) (email : String)
    (now : Nat) : Token :=
  let claims : JwtClaims :=
    [("user_id", .num userID), ("email", .str email),
     ("exp", .num (now + expirationHours * 3600)), ("iat", .num now)]
  { alg := "HS256", claims := claims, sig := ("HS256", claims, jwtSecret) }

/-- Decoding the wire payload into `jwt.MapClaims`: every JSON number
becomes a `float64`. -/
def decodeClaims (cs : JwtClaims) : JwtClaims :=
  cs.map (fun kv =>
    match kv.2 with
    | .num n => (kv.1, CVal.num (roundF64 n))
    | .str s => (kv.1, CVal.str s))

/-- The keyfunc's check `token.Method.(*jwt.SigningMethodHMAC)`. -/
def hmacAlg (a : String) : Bool :=
  a == "HS256" || a == "HS384" || a == "HS512"

/-- `golang-jwt` v5 default registered-claims validation for `MapClaims`:
`exp`, when present, must be after `now` (`nbf` is never set by this
service, and `iat` is not validated by default). -/
def validateMapClaims (cs : JwtClaims) (now : Nat) : Bool :=
  match lookupClaim cs "exp" with
  | some (.num e) => decide (now < e)
  | _ => true

/-- `jwt.Parse` with the service's keyfunc: reject non-HMAC signing
methods, verify the signature under the secret, decode the claims and run
the default registered-claims validation; `none` is any parse or
validity failure. -/
def parseToken (jwtSecret : String) (now : Nat) (tok : Token) : Option JwtClaims :=
  if !(hmacAlg tok.alg) then none
  else if tok.sig != (tok.alg, tok.claims, jwtSecret) then none
  else
    let decoded := decodeClaims tok.claims
    if validateMapClaims decoded now then some decoded else none

/-- `auth.extractUserID`: the `user_id` claim must exist and be a `float64`;
`uint(userIDFloat)` on the integral values produced here is exact. -/
def extractUserID (cs : JwtClaims) : Except GoErr Nat :=
  match lookupClaim cs "user_id" with
  | some (.num f) => .ok f
  | some _ => .error ErrInvalidToken
  | none => .error ErrInvalidToken

/-- `auth.extractEmail`. -/
def extractEmail (cs : JwtClaims) : Except GoErr String :=
  match lookupClaim cs "email" with
  | some (.str s) => .ok s
  | some _ => .error ErrInvalidToken
  | none => .error ErrInvalidToken

/-- `auth.Service.ValidateToken`. -/
def ValidateToken (jwtSecret : String) (now : Nat) (tok : Token) :
    Except GoErr (Nat × String) :=
  match parseToken jwtSecret now tok with
  | none => .error ErrInvalidToken
  | some claims =>
    match extractUserID claims with
    | .error e => .error e
    | .ok uid =>
      match extractEmail claims with
      | .error e => .error e
      | .ok em => .ok (uid, em)

end auth

/-- The events published during one service call, in order. -/
def publishedOf (tr : List Action) : List events.DomainEvent :=
  tr.filterMap (fun a =>
    match a with
    | .published ev _ => some ev
    | _ => none)

/-- Whether the trace contains a storage write. -/
def hasWrite (tr : List Action) : Bool :=
  tr.any (fun a =>
    match a with
    | .write _ _ => true
    | _ => false)

/-- Whether the trace opens a transaction. -/
def hasBegin (tr : List Action) : Bool :=
  tr.any (fun a =>
    match a with
    | .txBegin _ => true
    | _ => false)

/-- Every publication in the trace happens strictly after some transaction
commit (the flag records whether a commit has been seen). -/
def pubsAfterCommit : List Action → Bool → Bool
  | [], _ => true
  | Action.txCommit :: rest, _ => pubsAfterCommit rest true
  | Action.published _ _ :: rest, seen => seen && pubsAfterCommit rest seen
  | _ :: rest, seen => pubsAfterCommit rest seen

/-- The event-publication discipline of a mutating service operation
returning a response: on success exactly one event of the right shape is
published, strictly after the commit; on failure nothing is published;
and the call's result and final storage state do not depend on the event
bus registry (handler errors are discarded by the service). -/
def PublishDiscipline {α σ : Type} (run : events.Registry → Except GoErr α × σ × List Action)
    (good : events.DomainEvent → Prop) : Prop :=
  (∀ reg, (∃ a, (run reg).1 = .ok a) →
      (∃ ev, publishedOf (run reg).2.2 = [ev] ∧ good ev) ∧
      pubsAfterCommit (run reg).2.2 false = true) ∧
  (∀ reg, (∃ e, (run reg).1 = .error e) → publishedOf (run reg).2.2 = []) ∧
  (∀ reg reg2, (run reg).1 = (run reg2).1 ∧ (run reg).2.1 = (run reg2).2.1)

/-- The same discipline for delete operations, which return only an
error. -/
def PublishDisciplineDel {σ : Type} (run : events.Registry → Option GoErr × σ × List Action)
    (good : events.DomainEvent → Prop) : Prop :=
  (∀ reg, (run reg).1 = none →
      (∃ ev, publishedOf (run reg).2.2 = [ev] ∧ good ev) ∧
      pubsAfterCommit (run reg).2.2 false = true) ∧
  (∀ reg, (∃ e, (run reg).1 = some e) → publishedOf (run reg).2.2 = []) ∧
  (∀ reg reg2, (run reg).1 = (run reg2).1 ∧ (run reg).2.1 = (run reg2).2.1)

/-- C1: for every `WithTransaction(ctx, fn)` call whose transaction opens,
if `fn` returns an error the transaction is rolled back (the storage
state reverts to the state before the call, and the trace ends in a
rollback) and that very error value — unwrapped, not re-wrapped — is
returned; if `fn` returns no error the transaction is committed and the
post-body state is kept, and a commit failure is returned as the call's
error with the state reverted. -/
theorem c1_withTransaction_rollback_commit {σ : Type} (env : TxEnv) (ctx : Ctx) (s : σ)
    (fn : Ctx → σ → Option GoErr × σ × List Action)
    (hbegin : env.beginErr = none) :
    (∀ e s2 tr, fn { ctx with txVal := some (Conn.tx env.txId) } s = (some e, s2, tr) →
        WithTransaction env ctx s fn =
          (some e, s, Action.txBegin (Conn.tx env.txId) :: tr ++ [Action.txRollback])) ∧
    (∀ s2 tr, fn { ctx with txVal := some (Conn.tx env.txId) } s = (none, s2, tr) →
        (env.commitErr = none →
          WithTransaction env ctx s fn =
            (none, s2, Action.txBegin (Conn.tx env.txId) :: tr ++ [Action.txCommit])) ∧
        (∀ ce, env.commitErr = some ce →
          WithTransaction env ctx s fn =
            (some ce, s, Action.txBegin (Conn.tx env.txId) :: tr))) := by
  refine ⟨?_, ?_⟩
  · intro e s2 tr hfn
    simp [WithTransaction, hbegin, hfn]
  · intro s2 tr hfn
    refine ⟨?_, ?_⟩
    · intro hc
      simp [WithTransaction, hbegin, hfn, hc]
    · intro ce hc
      simp [WithTransaction, hbegin, hfn, hc]

/-- Witness for C1 at concrete inputs: a failing body rolls back and
returns the body's error unchanged; a successful body commits. -/
theorem c1_withTransaction_rollback_commit_witness :
    WithTransaction ⟨none, none, 5⟩ ⟨none⟩ (0 : Nat)
        (fun _ n => (some (GoErr.base "boom"), n + 1, [Action.write (Conn.tx 5) "w"])) =
      (some (GoErr.base "boom"), 0,
        Action.txBegin (Conn.tx 5) :: [Action.write (Conn.tx 5) "w"] ++ [Action.txRollback]) ∧
    WithTransaction ⟨none, none, 5⟩ ⟨none⟩ (0 : Nat)
        (fun _ n => (none, n + 1, [Action.write (Conn.tx 5) "w"])) =
      (none, 1, Action.txBegin (Conn.tx 5) :: [Action.write (Conn.tx 5) "w"] ++ [Action.txCommit]) := by
  refine ⟨?_, ?_⟩
  · exact (c1_withTransaction_rollback_commit ⟨none, none, 5⟩ ⟨none⟩ 0 _ rfl).1
      (GoErr.base "boom") 1 [Action.write (Conn.tx 5) "w"] rfl
  · exact ((c1_withTransaction_rollback_commit ⟨none, none, 5⟩ ⟨none⟩ 0 _ rfl).2
      1 [Action.write (Conn.tx 5) "w"] rfl).1 rfl

/-- C2: evaluation at the failing input.  With a transaction handle in the
context (as every `txCtx` built by `WithTransaction` carries), the users
repository executes against that transaction, but the posts and comments
repositories still execute against the default connection — they never
consult `db.GetDBFromContext` — so the claim that every repository
operation of the three entities executes against the ambient transaction
fails on the posts and comments repositories. -/
theorem c2_posts_comments_repos_ignore_ambient_tx :
    (users.repoCreate (RepoEnv.ok 0) ⟨some (Conn.tx 7)⟩ ⟨[], 1⟩
        ⟨0, "alice", "alice@x.com", "pw", 0, 0, none⟩).2.2 = Conn.tx 7 ∧
    (posts.repoCreate (RepoEnv.ok 0) ⟨some (Conn.tx 7)⟩ ⟨[], 1⟩
        ⟨0, "t", "c", 1, [], 0, 0, none⟩).2.2 = Conn.main ∧
    (posts.repoDelete (RepoEnv.ok 0) ⟨some (Conn.tx 7)⟩
        ⟨[⟨5, "t", "c", 1, [], 0, 0, none⟩], 6⟩ 5).2.2 = Conn.main ∧
    (comments.repoCreate (RepoEnv.ok 0) ⟨some (Conn.tx 7)⟩ ⟨[], 1⟩
        ⟨0, 1, "c", 1, 0, 0, none⟩).2.2 = Conn.main ∧
    Conn.main ≠ Conn.tx 7 := by
  refine ⟨rfl, rfl, rfl, rfl, by decide⟩

/-- C9: for every request, the parsed pagination parameters satisfy:
limit defaults to 20 when the parameter is absent and is capped at 100,
offset defaults to 0 when absent; the returned limit is always between 1
and 100 and the returned offset is never negative. -/
theorem c9_pagination_bounds (limitStr offsetStr : String) :
    1 ≤ (httputil.GetPaginationParams limitStr offsetStr).1 ∧
    (httputil.GetPaginationParams limitStr offsetStr).1 ≤ 100 ∧
    0 ≤ (httputil.GetPaginationParams limitStr offsetStr).2 ∧
    (limitStr = "" → (httputil.GetPaginationParams limitStr offsetStr).1 = 20) ∧
    (offsetStr = "" → (httputil.GetPaginationParams limitStr offsetStr).2 = 0) := by
  unfold httputil.GetPaginationParams
  dsimp only
  refine ⟨?_, ?_, ?_, ?_, ?_⟩ <;>
    (repeat' split) <;> simp_all <;> omega

/-- Witness for C9: absent parameters yield the defaults. -/
theorem c9_pagination_bounds_witness :
    (httputil.GetPaginationParams "" "x").1 = 20 ∧
    (httputil.GetPaginationParams "x" "").2 = 0 ∧
    1 ≤ (httputil.GetPaginationParams "500" "7").1 := by
  refine ⟨(c9_pagination_bounds "" "x").2.2.2.1 rfl,
    (c9_pagination_bounds "x" "").2.2.2.2 rfl,
    (c9_pagination_bounds "500" "7").1⟩

theorem c4h_reduceOption_nil (l : List (Option GoErr)) :
    l.reduceOption = [] ↔ ∀ x ∈ l, x = none := by
  induction l with
  | nil => simp
  | cons x xs ih =>
    cases x with
    | none => simpa [List.reduceOption_cons_of_none] using ih
    | some v => simp [List.reduceOption_cons_of_some]

theorem c4h_handlersFor_cons_ne (kv : String × List events.HandlerRef)
    (rest : events.Registry) (t : String) (hkv : (kv.1 == t) = false) :
    events.handlersFor (kv :: rest) t = events.handlersFor rest t := by
  simp [events.handlersFor, List.find?_cons, hkv]

theorem c4h_handlersFor_subscribe (reg : events.Registry) (t : String)
    (h : events.HandlerRef) :
    events.handlersFor (events.subscribe reg t h) t = events.handlersFor reg t ++ [h] := by
  induction reg with
  | nil => simp [events.subscribe, events.handlersFor]
  | cons kv rest ih =>
    by_cases hkv : kv.1 = t
    · simp [events.subscribe, events.handlersFor, List.find?_cons, hkv]
    · have hkvb : (kv.1 == t) = false := by simp [hkv]
      by_cases hrest : rest.any (fun kv2 => kv2.1 == t)
      · have hsub : events.subscribe (kv :: rest) t h =
            kv :: events.subscribe rest t h := by
          simp [events.subscribe, hkvb, hrest, hkv]
        rw [hsub, c4h_handlersFor_cons_ne kv _ t hkvb,
          c4h_handlersFor_cons_ne kv rest t hkvb, ih]
      · have hsub : events.subscribe (kv :: rest) t h =
            kv :: events.subscribe rest t h := by
          simp [events.subscribe, hkvb, hrest, hkv]
        rw [hsub, c4h_handlersFor_cons_ne kv _ t hkvb,
          c4h_handlersFor_cons_ne kv rest t hkvb, ih]

/-- C4: every `Publish(ctx, event)` call invokes exactly the handlers
registered for `event.Type()` — `Subscribe` appends, so slice order is
subscription order, and the fan-out maps over that slice, so a failing
handler never prevents the remaining ones from running; `Publish`
returns `nil` exactly when every invoked handler succeeded, and otherwise
one composite error formatted from every failing handler's error in
invocation order. -/
theorem c4_publish_fanout (reg : events.Registry) (ev : events.DomainEvent) :
    ((events.publish reg ev = none) ↔
      (∀ h ∈ events.handlersFor reg ev.typeTag, h.run ev = none)) ∧
    (events.publishResults reg ev =
      (events.handlersFor reg ev.typeTag).map (fun h => h.run ev)) ∧
    ((events.publishResults reg ev).reduceOption ≠ [] →
      events.publish reg ev =
        some (.base (events.formatHandlerErrs ((events.publishResults reg ev).reduceOption)))) ∧
    (∀ t h2, events.handlersFor (events.subscribe reg t h2) t =
      events.handlersFor reg t ++ [h2]) := by
  have key : (events.publish reg ev = none) ↔
      (events.publishResults reg ev).reduceOption = [] := by
    unfold events.publish
    dsimp only
    by_cases hc : ((events.publishResults reg ev).reduceOption) = []
    · simp [hc]
    · simp [hc]
  refine ⟨?_, rfl, ?_, ?_⟩
  · rw [key, c4h_reduceOption_nil]
    unfold events.publishResults
    constructor
    · intro hall h hmem
      exact hall (h.run ev) (List.mem_map_of_mem _ hmem)
    · intro hall x hmem
      obtain ⟨h, hmem2, hx⟩ := List.mem_map.mp hmem
      rw [← hx]
      exact hall h hmem2
  · intro hne
    unfold events.publish
    dsimp only
    rw [if_neg (by simpa using hne)]
  · intro t h2
    exact c4h_handlersFor_subscribe reg t h2

/-- Witness for C4: three handlers on one type, the second and third
fail — both failures appear in the returned composite error, the bus is
not `nil`-returning, and subscribing appends. -/
theorem c4_publish_fanout_witness :
    events.publish
        [("user.created",
          [⟨1, fun _ => none⟩, ⟨2, fun _ => some (GoErr.base "e2")⟩,
           ⟨3, fun _ => some (GoErr.base "e3")⟩])]
        (events.DomainEvent.userCreated 1 "a" "b") =
      some (.base (events.formatHandlerErrs [GoErr.base "e2", GoErr.base "e3"])) := by
  have h := (c4_publish_fanout
      [("user.created",
        [⟨1, fun _ => none⟩, ⟨2, fun _ => some (GoErr.base "e2")⟩,
         ⟨3, fun _ => some (GoErr.base "e3")⟩])]
      (events.DomainEvent.userCreated 1 "a" "b")).2.2.1
      (by simp [events.publishResults, events.handlersFor, events.DomainEvent.typeTag])
  exact h

theorem c8h_removeFirst_not_mem (hs : List events.HandlerRef) (pid : Nat)
    (h : pid ∉ hs.map events.HandlerRef.hid) :
    events.removeFirstById hs pid = hs := by
  induction hs with
  | nil => rfl
  | cons x xs ih =>
    simp only [List.map_cons, List.mem_cons, not_or] at h
    unfold events.removeFirstById
    rw [if_neg (by simpa using fun hx => h.1 hx.symm), ih h.2]

theorem c8h_removeFirst_first (pre post : List events.HandlerRef)
    (hr : events.HandlerRef) (pid : Nat)
    (hh : hr.hid = pid) (hpre : pid ∉ pre.map events.HandlerRef.hid) :
    events.removeFirstById (pre ++ hr :: post) pid = pre ++ post := by
  induction pre with
  | nil =>
    unfold events.removeFirstById
    simp [hh]
  | cons x xs ih =>
    simp only [List.map_cons, List.mem_cons, not_or] at hpre
    unfold events.removeFirstById
    simp only [List.cons_append]
    rw [if_neg (by simpa using fun hx => hpre.1 hx.symm), ih hpre.2]

theorem c8h_handlersFor_unsubscribe (reg : events.Registry) (t : String)
    (h : events.HandlerRef) :
    events.handlersFor (events.unsubscribe reg t h) t =
      events.removeFirstById (events.handlersFor reg t) h.hid := by
  induction reg with
  | nil => rfl
  | cons kv rest ih =>
    by_cases hkv : kv.1 = t
    · simp [events.unsubscribe, events.handlersFor, List.find?_cons, hkv]
    · have hkvb : (kv.1 == t) = false := by simp [hkv]
      have hstep : events.unsubscribe (kv :: rest) t h =
          kv :: events.unsubscribe rest t h := by
        simp [events.unsubscribe, hkvb, hkv]
      rw [hstep, c4h_handlersFor_cons_ne kv _ t hkvb,
        c4h_handlersFor_cons_ne kv rest t hkvb, ih]

theorem c8h_unsubscribe_keys_ne (reg : events.Registry) (t : String)
    (h : events.HandlerRef) (hall : ∀ kv ∈ reg, kv.1 ≠ t) :
    events.unsubscribe reg t h = reg := by
  induction reg with
  | nil => rfl
  | cons kv rest ih =>
    have h1 : kv.1 ≠ t := hall kv (by simp)
    have h2 : ∀ kv2 ∈ rest, kv2.1 ≠ t := fun kv2 hm => hall kv2 (by simp [hm])
    have hkvb : (kv.1 == t) = false := by simp [h1]
    have hstep : events.unsubscribe (kv :: rest) t h =
        kv :: events.unsubscribe rest t h := by
      simp [events.unsubscribe, hkvb, h1]
    rw [hstep, ih h2]

theorem c8h_unsubscribe_not_mem (reg : events.Registry) (t : String)
    (h : events.HandlerRef) (hnd : (reg.map Prod.fst).Nodup)
    (hmem : h.hid ∉ (events.handlersFor reg t).map events.HandlerRef.hid) :
    events.unsubscribe reg t h = reg := by
  induction reg with
  | nil => rfl
  | cons kv rest ih =>
    simp only [List.map_cons, List.nodup_cons] at hnd
    by_cases hkv : kv.1 = t
    · have hfirst : events.handlersFor (kv :: rest) t = kv.2 := by
        simp [events.handlersFor, List.find?_cons, hkv]
      rw [hfirst] at hmem
      have hrest : ∀ kv2 ∈ rest, kv2.1 ≠ t := by
        intro kv2 hm heq
        have hm2 : kv2.1 ∈ List.map Prod.fst rest := List.mem_map_of_mem Prod.fst hm
        rw [heq, ← hkv] at hm2
        exact hnd.1 hm2
      have hstep : events.unsubscribe (kv :: rest) t h =
          (kv.1, events.removeFirstById kv.2 h.hid) :: events.unsubscribe rest t h := by
        simp [events.unsubscribe, hkv]
      rw [hstep, c8h_removeFirst_not_mem kv.2 h.hid hmem,
        c8h_unsubscribe_keys_ne rest t h hrest]
    · have hkvb : (kv.1 == t) = false := by simp [hkv]
      rw [c4h_handlersFor_cons_ne kv rest t hkvb] at hmem
      have hstep : events.unsubscribe (kv :: rest) t h =
          kv :: events.unsubscribe rest t h := by
        simp [events.unsubscribe, hkvb, hkv]
      rw [hstep, ih hnd.2 hmem]

/-- C8: for every `Unsubscribe(eventType, handler)` call on a registry
with the (Go-map) property of pairwise distinct keys: if the handler's
identity is not registered under that type the registry is unchanged
(no-op), and if it is registered the first slice entry with that identity
is removed and the rest of the slice is preserved. -/
theorem c8_unsubscribe_identity (reg : events.Registry) (t : String)
    (h : events.HandlerRef) (hnd : (reg.map Prod.fst).Nodup) :
    (h.hid ∉ (events.handlersFor reg t).map events.HandlerRef.hid →
      events.unsubscribe reg t h = reg) ∧
    (∀ pre hr post, events.handlersFor reg t = pre ++ hr :: post →
      hr.hid = h.hid → h.hid ∉ pre.map events.HandlerRef.hid →
      events.handlersFor (events.unsubscribe reg t h) t = pre ++ post) := by
  refine ⟨fun hmem => c8h_unsubscribe_not_mem reg t h hnd hmem, ?_⟩
  intro pre hr post hsplit hh hpre
  rw [c8h_handlersFor_unsubscribe, hsplit,
    c8h_removeFirst_first pre post hr h.hid hh hpre]

/-- Witness for C8 at a concrete registry: removing an unregistered
identity is a no-op, removing a registered one deletes exactly that
slice entry. -/
theorem c8_unsubscribe_identity_witness :
    events.unsubscribe
        [("user.created", [⟨1, fun _ => none⟩, ⟨2, fun _ => none⟩])]
        "user.created" ⟨9, fun _ => none⟩ =
      [("user.created", [⟨1, fun _ => none⟩, ⟨2, fun _ => none⟩])] ∧
    events.handlersFor
        (events.unsubscribe
          [("user.created", [⟨1, fun _ => none⟩, ⟨2, fun _ => none⟩])]
          "user.created" ⟨2, fun _ => none⟩)
        "user.created" =
      [⟨1, fun _ => none⟩] := by
  constructor
  · exact (c8_unsubscribe_identity
      [("user.created", [⟨1, fun _ => none⟩, ⟨2, fun _ => none⟩])]
      "user.created" ⟨9, fun _ => none⟩ (by simp)).1
      (by simp [events.handlersFor])
  · have h := (c8_unsubscribe_identity
      [("user.created", [⟨1, fun _ => none⟩, ⟨2, fun _ => none⟩])]
      "user.created" ⟨2, fun _ => none⟩ (by simp)).2
      [⟨1, fun _ => none⟩] ⟨2, fun _ => none⟩ [] (by rfl) rfl (by simp)
    simpa using h

/-- C10: for every user id that is exactly representable as an IEEE-754
double (`roundF64` fixes it; in particular every id below `2^53`) and
every email, validating the token generated for that id and email under
the same secret, at a time before the expiry (`exp` itself also exactly
representable, as every realistic Unix time is), returns the same id,
the same email, and no error. -/
theorem c10_token_roundtrip (jwtSecret email : String)
    (userID expirationHours t0 t1 : Nat)
    (hid : auth.roundF64 userID = userID)
    (hexp : auth.roundF64 (t0 + expirationHours * 3600) = t0 + expirationHours * 3600)
    (hnot : t1 < t0 + expirationHours * 3600) :
    auth.ValidateToken jwtSecret t1
        (auth.generateToken jwtSecret expirationHours userID email t0) =
      .ok (userID, email) := by
  unfold auth.ValidateToken auth.parseToken auth.generateToken auth.decodeClaims
    auth.validateMapClaims auth.extractUserID auth.extractEmail auth.lookupClaim auth.hmacAlg
  simp [hid, hexp, hnot]

/-- Witness for C10 at concrete inputs: id 42 round-trips through a token
that expires an hour after issuance and is validated half an hour in. -/
theorem c10_token_roundtrip_witness :
    auth.ValidateToken "secret" 1800 (auth.generateToken "secret" 1 42 "a@x.com" 0) =
      .ok (42, "a@x.com") := by
  exact c10_token_roundtrip "secret" "a@x.com" 42 1 0 1800
    (by decide) (by decide) (by decide)

/-- C5: a failing precondition returns the typed domain error
immediately: creating a post for a user id with no live row yields an
error that `errors.Is`-matches `domain.ErrNotFound`; creating a user
whose (valid) username or email already has a live row yields
`ErrAlreadyExists`; in each case the store is unchanged, no transaction
is opened and no repository write occurs. -/
theorem c5_precondition_failure_no_tx
    (env : SvcEnv) (reg : events.Registry) (ctx : Ctx)
    (hget : env.usersRepoEnv.getErr = none) :
    (∀ (w : World) (userID : Nat) (req : posts.CreateRequest),
      users.findLiveById w.users userID = none →
      (posts.serviceCreate env reg ctx w userID req).1 =
          .error (.wrapf "failed to check user existence" users.ErrNotFound) ∧
      GoErr.is (.wrapf "failed to check user existence" users.ErrNotFound)
          domain.ErrNotFound = true ∧
      (posts.serviceCreate env reg ctx w userID req).2.1 = w ∧
      hasBegin (posts.serviceCreate env reg ctx w userID req).2.2 = false ∧
      hasWrite (posts.serviceCreate env reg ctx w userID req).2.2 = false) ∧
    (∀ (st : users.Store) (req : users.CreateRequest) (u : users.Model),
      domain.User.Validate ⟨0, req.username, req.email, ""⟩ = none →
      6 ≤ req.password.utf8ByteSize →
      users.findLiveByUsername st req.username = some u →
      (users.serviceCreate env reg ctx st req).1 = .error users.ErrAlreadyExists ∧
      (users.serviceCreate env reg ctx st req).2.1 = st ∧
      hasBegin (users.serviceCreate env reg ctx st req).2.2 = false ∧
      hasWrite (users.serviceCreate env reg ctx st req).2.2 = false) ∧
    (∀ (st : users.Store) (req : users.CreateRequest) (u : users.Model),
      domain.User.Validate ⟨0, req.username, req.email, ""⟩ = none →
      6 ≤ req.password.utf8ByteSize →
      users.findLiveByUsername st req.username = none →
      users.findLiveByEmail st req.email = some u →
      (users.serviceCreate env reg ctx st req).1 = .error users.ErrAlreadyExists ∧
      (users.serviceCreate env reg ctx st req).2.1 = st ∧
      hasBegin (users.serviceCreate env reg ctx st req).2.2 = false ∧
      hasWrite (users.serviceCreate env reg ctx st req).2.2 = false) := by
  refine ⟨?_, ?_, ?_⟩
  · intro w userID req hfind
    refine ⟨?_, by decide, ?_, ?_, ?_⟩ <;>
      simp [posts.serviceCreate, di.adapterGetByID, users.repoGetByID, hget, hfind,
        hasBegin, hasWrite]
  · intro st req u hval hpw hfindU
    have hpw2 : ¬(req.password.utf8ByteSize < 6) := by omega
    refine ⟨?_, ?_, ?_, ?_⟩ <;>
      simp [users.serviceCreate, domain.User.SetPassword, hval, hpw2,
        users.repoGetByUsername, hget, hfindU, hasBegin, hasWrite]
  · intro st req u hval hpw hfindU hfindE
    have hpw2 : ¬(req.password.utf8ByteSize < 6) := by omega
    refine ⟨?_, ?_, ?_, ?_⟩ <;>
      simp [users.serviceCreate, domain.User.SetPassword, hval, hpw2,
        users.repoGetByUsername, users.repoGetByEmail, users.ErrNotFound, hget,
        hfindU, hfindE, hasBegin, hasWrite]

/-- Witness for C5: a concrete world with one user "alice"; creating a
post for the absent user id 999 and re-creating "alice" (same username)
or a user with her email all fail without opening a transaction. -/
theorem c5_precondition_failure_no_tx_witness :
    (posts.serviceCreate
        ⟨RepoEnv.ok 0, RepoEnv.ok 0, ⟨none, none, 0⟩, true, true⟩ [] ⟨none⟩
        ⟨⟨[⟨1, "alice", "alice@x.com", "pw", 0, 0, none⟩], 2⟩, ⟨[], 1⟩⟩
        999 ⟨"t", "c", []⟩).1 =
      .error (.wrapf "failed to check user existence" users.ErrNotFound) ∧
    (users.serviceCreate
        ⟨RepoEnv.ok 0, RepoEnv.ok 0, ⟨none, none, 0⟩, true, true⟩ [] ⟨none⟩
        ⟨[⟨1, "alice", "alice@x.com", "pw", 0, 0, none⟩], 2⟩
        ⟨"alice", "other@x.com", "secret1"⟩).1 = .error users.ErrAlreadyExists ∧
    (users.serviceCreate
        ⟨RepoEnv.ok 0, RepoEnv.ok 0, ⟨none, none, 0⟩, true, true⟩ [] ⟨none⟩
        ⟨[⟨1, "alice", "alice@x.com", "pw", 0, 0, none⟩], 2⟩
        ⟨"bob", "alice@x.com", "secret1"⟩).1 = .error users.ErrAlreadyExists := by
  have h := c5_precondition_failure_no_tx
    ⟨RepoEnv.ok 0, RepoEnv.ok 0, ⟨none, none, 0⟩, true, true⟩ [] ⟨none⟩ rfl
  refine ⟨?_, ?_, ?_⟩
  · exact (h.1 ⟨⟨[⟨1, "alice", "alice@x.com", "pw", 0, 0, none⟩], 2⟩, ⟨[], 1⟩⟩
      999 ⟨"t", "c", []⟩ (by decide)).1
  · exact (h.2.1 ⟨[⟨1, "alice", "alice@x.com", "pw", 0, 0, none⟩], 2⟩
      ⟨"alice", "other@x.com", "secret1"⟩ ⟨1, "alice", "alice@x.com", "pw", 0, 0, none⟩
      (by decide) (by decide) (by decide)).1
  · exact (h.2.2 ⟨[⟨1, "alice", "alice@x.com", "pw", 0, 0, none⟩], 2⟩
      ⟨"bob", "alice@x.com", "secret1"⟩ ⟨1, "alice", "alice@x.com", "pw", 0, 0, none⟩
      (by decide) (by decide) (by decide) (by decide)).1

/-- C6: for every stored live post and every acting user whose id differs
from the post's `UserID`, the post service's Update and Delete return the
forbidden error, perform no repository write, and leave the world (hence
the post) unmodified. -/
theorem c6_ownership_forbidden
    (env : SvcEnv) (reg : events.Registry) (ctx : Ctx)
    (hget : env.postsRepoEnv.getErr = none) :
    ∀ (w : World) (id userID : Nat) (p : posts.Model) (req : posts.UpdateRequest),
      posts.findLiveById w.posts id = some p →
      p.userId ≠ userID →
      (posts.serviceUpdate env reg ctx w id userID req).1 = .error posts.ErrForbidden ∧
      (posts.serviceUpdate env reg ctx w id userID req).2.1 = w ∧
      hasWrite (posts.serviceUpdate env reg ctx w id userID req).2.2 = false ∧
      (posts.serviceDelete env reg ctx w id userID).1 = some posts.ErrForbidden ∧
      (posts.serviceDelete env reg ctx w id userID).2.1 = w ∧
      hasWrite (posts.serviceDelete env reg ctx w id userID).2.2 = false := by
  intro w id userID p req hfind hne
  have hne2 : (p.userId == userID) = false := by simp [hne]
  refine ⟨?_, ?_, ?_, ?_, ?_, ?_⟩ <;>
    simp [posts.serviceUpdate, posts.serviceDelete, posts.repoGetByID, hget, hfind,
      posts.modelToDomain, domain.Post.CanBeEditedBy, domain.Post.CanBeDeletedBy,
      hne2, hasWrite]

/-- Witness for C6: user 2 can neither update nor delete user 1's post. -/
theorem c6_ownership_forbidden_witness :
    (posts.serviceUpdate
        ⟨RepoEnv.ok 0, RepoEnv.ok 0, ⟨none, none, 0⟩, true, true⟩ [] ⟨none⟩
        ⟨⟨[], 1⟩, ⟨[⟨5, "t", "c", 1, [], 0, 0, none⟩], 6⟩⟩
        5 2 ⟨some "t2", none, none⟩).1 = .error posts.ErrForbidden ∧
    (posts.serviceDelete
        ⟨RepoEnv.ok 0, RepoEnv.ok 0, ⟨none, none, 0⟩, true, true⟩ [] ⟨none⟩
        ⟨⟨[], 1⟩, ⟨[⟨5, "t", "c", 1, [], 0, 0, none⟩], 6⟩⟩
        5 2).1 = some posts.ErrForbidden := by
  have h := c6_ownership_forbidden
    ⟨RepoEnv.ok 0, RepoEnv.ok 0, ⟨none, none, 0⟩, true, true⟩ [] ⟨none⟩ rfl
    ⟨⟨[], 1⟩, ⟨[⟨5, "t", "c", 1, [], 0, 0, none⟩], 6⟩⟩
    5 2 ⟨5, "t", "c", 1, [], 0, 0, none⟩ ⟨some "t2", none, none⟩
    (by decide) (by decide)
  exact ⟨h.1, h.2.2.2.1⟩

theorem c7h_find_after_softdelete (rows : List posts.Model) (id now : Nat) :
    List.find? ((fun r => r.id == id && r.deletedAt == none) ∘ fun r =>
        if r.id = id ∧ r.deletedAt = none then { r with deletedAt := some now } else r)
      rows = none := by
  apply List.find?_eq_none.mpr
  intro x _
  simp only [Function.comp_apply]
  by_cases hc : x.id = id ∧ x.deletedAt = none
  · rw [if_pos hc]
    simp
  · rw [if_neg hc]
    simp only [Bool.and_eq_true, beq_iff_eq]
    intro h1
    exact hc h1

/-- C7: a post deleted by its owner through the service: the delete
succeeds, a subsequent repository `GetByID` for that id returns
`ErrNotFound`, yet the row is still present in storage with its deletion
timestamp set — a soft delete, not physical removal. -/
theorem c7_soft_delete
    (env : SvcEnv) (reg : events.Registry) (ctx : Ctx)
    (hget : env.postsRepoEnv.getErr = none)
    (hdel : env.postsRepoEnv.deleteErr = none)
    (hbegin : env.txEnv.beginErr = none)
    (hcommit : env.txEnv.commitErr = none)
    (htx : env.hasTxMgr = true) :
    ∀ (w : World) (id userID : Nat) (p : posts.Model),
      posts.findLiveById w.posts id = some p →
      p.userId = userID →
      (posts.serviceDelete env reg ctx w id userID).1 = none ∧
      (posts.repoGetByID env.postsRepoEnv ctx
          (posts.serviceDelete env reg ctx w id userID).2.1.posts id).1 =
        .error posts.ErrNotFound ∧
      ((posts.serviceDelete env reg ctx w id userID).2.1.posts.rows.any
          (fun r => r.id == id && r.deletedAt == some env.postsRepoEnv.now)) = true := by
  intro w id userID p hfind howner
  have hfind2 : List.find? (fun r => r.id == id && r.deletedAt == none) w.posts.rows = some p := by
    simpa [posts.findLiveById] using hfind
  have hmem : p ∈ w.posts.rows := List.mem_of_find?_eq_some hfind2
  have hpred : (p.id == id && p.deletedAt == none) = true := by
    simpa using List.find?_some hfind2
  have hpid : p.id = id := by
    have := hpred
    simp only [Bool.and_eq_true, beq_iff_eq] at this
    exact this.1
  have hpdel : p.deletedAt = none := by
    have := hpred
    simp only [Bool.and_eq_true, beq_iff_eq] at this
    exact this.2
  have hcount : ¬(w.posts.rows.countP (fun r => r.id == id && r.deletedAt == none) = 0) := by
    have : 0 < w.posts.rows.countP (fun r => r.id == id && r.deletedAt == none) :=
      List.countP_pos_iff.mpr ⟨p, hmem, hpred⟩
    omega
  refine ⟨?_, ?_, ?_⟩
  · simp [posts.serviceDelete, posts.repoGetByID, posts.repoDelete, users.runPersist,
      WithTransaction, hget, hdel, hbegin, hcommit, htx, posts.findLiveById, hfind2,
      posts.modelToDomain, domain.Post.CanBeDeletedBy, howner, hcount]
  · simp [posts.serviceDelete, posts.repoGetByID, posts.repoDelete, users.runPersist,
      WithTransaction, hget, hdel, hbegin, hcommit, htx, posts.findLiveById, hfind2,
      posts.modelToDomain, domain.Post.CanBeDeletedBy, howner, hcount,
      c7h_find_after_softdelete]
  · simp [posts.serviceDelete, posts.repoGetByID, posts.repoDelete, users.runPersist,
      WithTransaction, hget, hdel, hbegin, hcommit, htx, posts.findLiveById, hfind2,
      posts.modelToDomain, domain.Post.CanBeDeletedBy, howner, hcount]
    refine ⟨p, hmem, ?_⟩
    simp [hpid, hpdel]

/-- Witness for C7: owner 1 soft-deletes post 5; the lookup then misses
while the row persists with its timestamp. -/
theorem c7_soft_delete_witness :
    (posts.serviceDelete
        ⟨RepoEnv.ok 99, RepoEnv.ok 99, ⟨none, none, 0⟩, true, true⟩ [] ⟨none⟩
        ⟨⟨[], 1⟩, ⟨[⟨5, "t", "c", 1, [], 0, 0, none⟩], 6⟩⟩ 5 1).1 = none ∧
    (posts.repoGetByID (RepoEnv.ok 99) ⟨none⟩
        (posts.serviceDelete
          ⟨RepoEnv.ok 99, RepoEnv.ok 99, ⟨none, none, 0⟩, true, true⟩ [] ⟨none⟩
          ⟨⟨[], 1⟩, ⟨[⟨5, "t", "c", 1, [], 0, 0, none⟩], 6⟩⟩ 5 1).2.1.posts 5).1 =
      .error posts.ErrNotFound ∧
    ((posts.serviceDelete
        ⟨RepoEnv.ok 99, RepoEnv.ok 99, ⟨none, none, 0⟩, true, true⟩ [] ⟨none⟩
        ⟨⟨[], 1⟩, ⟨[⟨5, "t", "c", 1, [], 0, 0, none⟩], 6⟩⟩ 5 1).2.1.posts.rows.any
      (fun r => r.id == 5 && r.deletedAt == some 99)) = true := by
  exact c7_soft_delete
    ⟨RepoEnv.ok 99, RepoEnv.ok 99, ⟨none, none, 0⟩, true, true⟩ [] ⟨none⟩
    rfl rfl rfl rfl rfl
    ⟨⟨[], 1⟩, ⟨[⟨5, "t", "c", 1, [], 0, 0, none⟩], 6⟩⟩ 5 1
    ⟨5, "t", "c", 1, [], 0, 0, none⟩ (by decide) rfl

theorem c3h_users_delete (env : SvcEnv) (ctx : Ctx) (st : users.Store) (id : Nat)
    (htx : env.hasTxMgr = true) (hbus : env.hasBus = true) :
    PublishDisciplineDel (fun reg => users.serviceDelete env reg ctx st id)
      (fun ev => ev = .userDeleted id) := by
  have hP12 : ∀ reg,
      ((users.serviceDelete env reg ctx st id).1 = none →
        (∃ ev, publishedOf (users.serviceDelete env reg ctx st id).2.2 = [ev] ∧
          ev = events.DomainEvent.userDeleted id) ∧
        pubsAfterCommit (users.serviceDelete env reg ctx st id).2.2 false = true) ∧
      (∀ e, (users.serviceDelete env reg ctx st id).1 = some e →
        publishedOf (users.serviceDelete env reg ctx st id).2.2 = []) := by
    intro reg
    unfold users.serviceDelete users.runPersist WithTransaction
    simp only [htx, hbus, if_true]
    repeat' split
    all_goals simp_all [publishedOf, pubsAfterCommit]
  have hP3 : ∀ reg reg2,
      (users.serviceDelete env reg ctx st id).1 = (users.serviceDelete env reg2 ctx st id).1 ∧
      (users.serviceDelete env reg ctx st id).2.1 = (users.serviceDelete env reg2 ctx st id).2.1 := by
    intro reg reg2
    unfold users.serviceDelete users.runPersist WithTransaction
    simp only [htx, hbus, if_true]
    constructor <;> (repeat' split) <;> simp_all
  refine ⟨fun reg hok => (hP12 reg).1 hok, fun reg he => ?_, hP3⟩
  obtain ⟨e, he⟩ := he
  exact (hP12 reg).2 e he

theorem c3h_users_create (env : SvcEnv) (ctx : Ctx) (st : users.Store)
    (req : users.CreateRequest)
    (htx : env.hasTxMgr = true) (hbus : env.hasBus = true) :
    PublishDiscipline (fun reg => users.serviceCreate env reg ctx st req)
      (fun ev => ∃ i, ev = .userCreated i req.username req.email) := by
  have hP12 : ∀ reg,
      ((∃ a, (users.serviceCreate env reg ctx st req).1 = .ok a) →
        (∃ ev, publishedOf (users.serviceCreate env reg ctx st req).2.2 = [ev] ∧
          ∃ i, ev = events.DomainEvent.userCreated i req.username req.email) ∧
        pubsAfterCommit (users.serviceCreate env reg ctx st req).2.2 false = true) ∧
      (∀ e, (users.serviceCreate env reg ctx st req).1 = .error e →
        publishedOf (users.serviceCreate env reg ctx st req).2.2 = []) := by
    intro reg
    unfold users.serviceCreate users.runPersist WithTransaction
      domain.User.SetPassword users.domainToModel
    simp only [htx, hbus, if_true]
    by_cases hpw : req.password.utf8ByteSize < 6 <;>
      simp only [hpw, if_true, if_false] <;>
      (repeat' split) <;>
      simp_all [publishedOf, pubsAfterCommit]
  have hP3 : ∀ reg reg2,
      (users.serviceCreate env reg ctx st req).1 = (users.serviceCreate env reg2 ctx st req).1 ∧
      (users.serviceCreate env reg ctx st req).2.1 =
        (users.serviceCreate env reg2 ctx st req).2.1 := by
    intro reg reg2
    unfold users.serviceCreate users.runPersist WithTransaction
      domain.User.SetPassword users.domainToModel
    simp only [htx, hbus, if_true]
    constructor <;> (repeat' split) <;> simp_all
  exact ⟨fun reg hok => (hP12 reg).1 hok,
    fun reg he => by obtain ⟨e, he⟩ := he; exact (hP12 reg).2 e he, hP3⟩

theorem c3h_usernameStep_shape (env : SvcEnv) (ctx : Ctx) (st : users.Store)
    (id : Nat) (user : domain.User) (o : Option String) :
    (∀ e tr, users.usernameStep env ctx st id user o = .error (e, tr) →
      tr = [Action.readOp "users.GetByUsername"]) ∧
    (∀ u tr, users.usernameStep env ctx st id user o = .ok (u, tr) →
      tr = [] ∨ tr = [Action.readOp "users.GetByUsername"]) := by
  constructor <;> intro x tr h <;>
    (unfold users.usernameStep at h; repeat' split at h) <;> simp_all

theorem c3h_emailStep_shape (env : SvcEnv) (ctx : Ctx) (st : users.Store)
    (id : Nat) (user : domain.User) (o : Option String) :
    (∀ e tr, users.emailStep env ctx st id user o = .error (e, tr) →
      tr = [Action.readOp "users.GetByEmail"]) ∧
    (∀ u tr, users.emailStep env ctx st id user o = .ok (u, tr) →
      tr = [] ∨ tr = [Action.readOp "users.GetByEmail"]) := by
  constructor <;> intro x tr h <;>
    (unfold users.emailStep at h; repeat' split at h) <;> simp_all

set_option maxHeartbeats 1600000 in
theorem c3h_users_update (env : SvcEnv) (ctx : Ctx) (st : users.Store)
    (id : Nat) (req : users.UpdateRequest)
    (htx : env.hasTxMgr = true) (hbus : env.hasBus = true) :
    PublishDiscipline (fun reg => users.serviceUpdate env reg ctx st id req)
      (fun ev => ∃ i u em, ev = .userUpdated i u em) := by
  have hP12 : ∀ reg,
      ((∃ a, (users.serviceUpdate env reg ctx st id req).1 = .ok a) →
        (∃ ev, publishedOf (users.serviceUpdate env reg ctx st id req).2.2 = [ev] ∧
          ∃ i u em, ev = events.DomainEvent.userUpdated i u em) ∧
        pubsAfterCommit (users.serviceUpdate env reg ctx st id req).2.2 false = true) ∧
      (∀ e, (users.serviceUpdate env reg ctx st id req).1 = .error e →
        publishedOf (users.serviceUpdate env reg ctx st id req).2.2 = []) := by
    intro reg
    rcases hG : users.repoGetByID env.usersRepoEnv ctx st id with ⟨resG, cG⟩
    cases resG with
    | error e =>
      constructor
      · rintro ⟨a, ha⟩
        simp [users.serviceUpdate, hG] at ha
      · intro e2 _
        simp [users.serviceUpdate, hG, publishedOf]
    | ok m =>
      rcases hU : users.usernameStep env ctx st id (users.modelToDomain m) req.username with
        ⟨eu, tru⟩ | ⟨u1, tru⟩
      · have htru := (c3h_usernameStep_shape env ctx st id (users.modelToDomain m)
          req.username).1 eu tru hU
        subst htru
        constructor
        · rintro ⟨a, ha⟩
          simp [users.serviceUpdate, hG, hU] at ha
        · intro e2 _
          simp [users.serviceUpdate, hG, hU, publishedOf]
      · have htru := (c3h_usernameStep_shape env ctx st id (users.modelToDomain m)
          req.username).2 u1 tru hU
        rcases hE : users.emailStep env ctx st id u1 req.email with ⟨ee, tre⟩ | ⟨u2, tre⟩
        · have htre := (c3h_emailStep_shape env ctx st id u1 req.email).1 ee tre hE
          subst htre
          rcases htru with htru | htru <;> subst htru <;>
            exact ⟨fun h => by obtain ⟨a, ha⟩ := h; simp [users.serviceUpdate, hG, hU, hE] at ha,
              fun e2 _ => by simp [users.serviceUpdate, hG, hU, hE, publishedOf]⟩
        · have htre := (c3h_emailStep_shape env ctx st id u1 req.email).2 u2 tre hE
          rcases htru with htru | htru <;> rcases htre with htre | htre <;>
            subst htru <;> subst htre <;>
          · unfold users.serviceUpdate users.runPersist WithTransaction
            simp only [hG, hU, hE, htx, hbus, if_true]
            repeat' split
            all_goals simp_all [publishedOf, pubsAfterCommit]
  have hP3 : ∀ reg reg2,
      (users.serviceUpdate env reg ctx st id req).1 =
        (users.serviceUpdate env reg2 ctx st id req).1 ∧
      (users.serviceUpdate env reg ctx st id req).2.1 =
        (users.serviceUpdate env reg2 ctx st id req).2.1 := by
    intro reg reg2
    clear hP12
    unfold users.serviceUpdate users.usernameStep users.emailStep users.passwordStep
      users.runPersist WithTransaction
    simp only [htx, hbus, if_true]
    constructor <;> (repeat' split) <;> simp_all
  exact ⟨fun reg hok => (hP12 reg).1 hok,
    fun reg he => by obtain ⟨e, he⟩ := he; exact (hP12 reg).2 e he, hP3⟩

theorem c3h_posts_create (env : SvcEnv) (ctx : Ctx) (w : World)
    (userID : Nat) (req : posts.CreateRequest)
    (htx : env.hasTxMgr = true) (hbus : env.hasBus = true) :
    PublishDiscipline (fun reg => posts.serviceCreate env reg ctx w userID req)
      (fun ev => ∃ i, ev = .postCreated i userID req.title) := by
  have hP12 : ∀ reg,
      ((∃ a, (posts.serviceCreate env reg ctx w userID req).1 = .ok a) →
        (∃ ev, publishedOf (posts.serviceCreate env reg ctx w userID req).2.2 = [ev] ∧
          ∃ i, ev = events.DomainEvent.postCreated i userID req.title) ∧
        pubsAfterCommit (posts.serviceCreate env reg ctx w userID req).2.2 false = true) ∧
      (∀ e, (posts.serviceCreate env reg ctx w userID req).1 = .error e →
        publishedOf (posts.serviceCreate env reg ctx w userID req).2.2 = []) := by
    intro reg
    unfold posts.serviceCreate users.runPersist WithTransaction posts.domainToModel
    simp only [htx, hbus, if_true]
    repeat' split
    all_goals simp_all [publishedOf, pubsAfterCommit]
  have hP3 : ∀ reg reg2,
      (posts.serviceCreate env reg ctx w userID req).1 =
        (posts.serviceCreate env reg2 ctx w userID req).1 ∧
      (posts.serviceCreate env reg ctx w userID req).2.1 =
        (posts.serviceCreate env reg2 ctx w userID req).2.1 := by
    intro reg reg2
    unfold posts.serviceCreate users.runPersist WithTransaction posts.domainToModel
    simp only [htx, hbus, if_true]
    constructor <;> (repeat' split) <;> simp_all
  exact ⟨fun reg hok => (hP12 reg).1 hok,
    fun reg he => by obtain ⟨e, he⟩ := he; exact (hP12 reg).2 e he, hP3⟩

set_option maxHeartbeats 1600000 in
theorem c3h_posts_update (env : SvcEnv) (ctx : Ctx) (w : World)
    (id userID : Nat) (req : posts.UpdateRequest)
    (htx : env.hasTxMgr = true) (hbus : env.hasBus = true) :
    PublishDiscipline (fun reg => posts.serviceUpdate env reg ctx w id userID req)
      (fun ev => ∃ i u t, ev = .postUpdated i u t) := by
  have hP12 : ∀ reg,
      ((∃ a, (posts.serviceUpdate env reg ctx w id userID req).1 = .ok a) →
        (∃ ev, publishedOf (posts.serviceUpdate env reg ctx w id userID req).2.2 = [ev] ∧
          ∃ i u t, ev = events.DomainEvent.postUpdated i u t) ∧
        pubsAfterCommit (posts.serviceUpdate env reg ctx w id userID req).2.2 false = true) ∧
      (∀ e, (posts.serviceUpdate env reg ctx w id userID req).1 = .error e →
        publishedOf (posts.serviceUpdate env reg ctx w id userID req).2.2 = []) := by
    intro reg
    unfold posts.serviceUpdate posts.titleStep posts.contentStep posts.tagsStep
      users.runPersist WithTransaction
    simp only [htx, hbus, if_true]
    repeat' split
    all_goals simp_all [publishedOf, pubsAfterCommit]
  have hP3 : ∀ reg reg2,
      (posts.serviceUpdate env reg ctx w id userID req).1 =
        (posts.serviceUpdate env reg2 ctx w id userID req).1 ∧
      (posts.serviceUpdate env reg ctx w id userID req).2.1 =
        (posts.serviceUpdate env reg2 ctx w id userID req).2.1 := by
    intro reg reg2
    clear hP12
    unfold posts.serviceUpdate posts.titleStep posts.contentStep posts.tagsStep
      users.runPersist WithTransaction
    simp only [htx, hbus, if_true]
    constructor <;> (repeat' split) <;> simp_all
  exact ⟨fun reg hok => (hP12 reg).1 hok,
    fun reg he => by obtain ⟨e, he⟩ := he; exact (hP12 reg).2 e he, hP3⟩

theorem c3h_posts_delete (env : SvcEnv) (ctx : Ctx) (w : World)
    (id userID : Nat)
    (htx : env.hasTxMgr = true) (hbus : env.hasBus = true) :
    PublishDisciplineDel (fun reg => posts.serviceDelete env reg ctx w id userID)
      (fun ev => ∃ p u, ev = .postDeleted p u) := by
  have hP12 : ∀ reg,
      ((posts.serviceDelete env reg ctx w id userID).1 = none →
        (∃ ev, publishedOf (posts.serviceDelete env reg ctx w id userID).2.2 = [ev] ∧
          ∃ p u, ev = events.DomainEvent.postDeleted p u) ∧
        pubsAfterCommit (posts.serviceDelete env reg ctx w id userID).2.2 false = true) ∧
      (∀ e, (posts.serviceDelete env reg ctx w id userID).1 = some e →
        publishedOf (posts.serviceDelete env reg ctx w id userID).2.2 = []) := by
    intro reg
    unfold posts.serviceDelete users.runPersist WithTransaction
    simp only [htx, hbus, if_true]
    repeat' split
    all_goals simp_all [publishedOf, pubsAfterCommit]
  have hP3 : ∀ reg reg2,
      (posts.serviceDelete env reg ctx w id userID).1 =
        (posts.serviceDelete env reg2 ctx w id userID).1 ∧
      (posts.serviceDelete env reg ctx w id userID).2.1 =
        (posts.serviceDelete env reg2 ctx w id userID).2.1 := by
    intro reg reg2
    unfold posts.serviceDelete users.runPersist WithTransaction
    simp only [htx, hbus, if_true]
    constructor <;> (repeat' split) <;> simp_all
  refine ⟨fun reg hok => (hP12 reg).1 hok, fun reg he => ?_, hP3⟩
  obtain ⟨e, he⟩ := he
  exact (hP12 reg).2 e he

/-- C3: every mutating service operation on users and posts (Create,
Update, Delete), run with a transaction manager and an event bus
configured, publishes exactly one domain event describing the change when
the persistence step succeeds, and that publication appears strictly
after the transaction commit in the call's trace; when the call fails no
event is published; and the call's result and final storage state are
identical for any two handler registries — an error returned by
`Publish` never changes the operation's result. -/
theorem c3_events_once_after_commit (env : SvcEnv) (ctx : Ctx)
    (htx : env.hasTxMgr = true) (hbus : env.hasBus = true) :
    (∀ st req, PublishDiscipline (fun reg => users.serviceCreate env reg ctx st req)
      (fun ev => ∃ i, ev = .userCreated i req.username req.email)) ∧
    (∀ st id req, PublishDiscipline (fun reg => users.serviceUpdate env reg ctx st id req)
      (fun ev => ∃ i u em, ev = .userUpdated i u em)) ∧
    (∀ st id, PublishDisciplineDel (fun reg => users.serviceDelete env reg ctx st id)
      (fun ev => ev = .userDeleted id)) ∧
    (∀ w userID req, PublishDiscipline (fun reg => posts.serviceCreate env reg ctx w userID req)
      (fun ev => ∃ i, ev = .postCreated i userID req.title)) ∧
    (∀ w id userID req,
      PublishDiscipline (fun reg => posts.serviceUpdate env reg ctx w id userID req)
        (fun ev => ∃ i u t, ev = .postUpdated i u t)) ∧
    (∀ w id userID, PublishDisciplineDel (fun reg => posts.serviceDelete env reg ctx w id userID)
      (fun ev => ∃ p u, ev = .postDeleted p u)) :=
  ⟨fun st req => c3h_users_create env ctx st req htx hbus,
   fun st id req => c3h_users_update env ctx st id req htx hbus,
   fun st id => c3h_users_delete env ctx st id htx hbus,
   fun w userID req => c3h_posts_create env ctx w userID req htx hbus,
   fun w id userID req => c3h_posts_update env ctx w id userID req htx hbus,
   fun w id userID => c3h_posts_delete env ctx w id userID htx hbus⟩

/-- Witness for C3 at a concrete world: the owner's delete of post 5
publishes exactly the `post.deleted` event after the commit. -/
theorem c3_events_once_after_commit_witness :
    ((∃ ev, publishedOf (posts.serviceDelete
        ⟨RepoEnv.ok 7, RepoEnv.ok 7, ⟨none, none, 0⟩, true, true⟩ [] ⟨none⟩
        ⟨⟨[], 1⟩, ⟨[⟨5, "t", "c", 1, [], 0, 0, none⟩], 6⟩⟩ 5 1).2.2 = [ev] ∧
      ∃ p u, ev = events.DomainEvent.postDeleted p u) ∧
    pubsAfterCommit (posts.serviceDelete
        ⟨RepoEnv.ok 7, RepoEnv.ok 7, ⟨none, none, 0⟩, true, true⟩ [] ⟨none⟩
        ⟨⟨[], 1⟩, ⟨[⟨5, "t", "c", 1, [], 0, 0, none⟩], 6⟩⟩ 5 1).2.2 false = true) := by
  exact ((c3_events_once_after_commit
      ⟨RepoEnv.ok 7, RepoEnv.ok 7, ⟨none, none, 0⟩, true, true⟩ ⟨none⟩ rfl rfl).2.2.2.2.2
      ⟨⟨[], 1⟩, ⟨[⟨5, "t", "c", 1, [], 0, 0, none⟩], 6⟩⟩ 5 1).1 [] (by decide)

end Social
